import Mathlib

/-!
# Verification of the BRD extraction engine

A shallow embedding, in Lean 4, of the pure core of the BRD
(Business Requirements Document) extraction engine:

* `DataIngestionEngine.chunk_text`, `preprocess_noise`, `extract_entities`
  (`brd_agent/data_ingest.py`);
* `BRDExtractionEngine.classify_channel`, `detect_conflicts`,
  `_extract_via_regex`, `_merge_extractions`, `_merge_chunk_results`,
  `_calculate_confidence`, `extract_brd` (`brd_agent/backend.py`);
* `CrossChannelSynthesis._merge_channel_data`
  (`brd_agent/cross_channel_synthesis.py`).

Conventions of the embedding:

* Python strings are Lean `String`s, manipulated through `List Char`;
  character classes (`\w`, `\d`, `\s`, lower-casing) are modelled over
  ASCII, which covers every keyword and marker the code uses.
* Python floats are modelled as exact rationals `ℚ`.  Every arithmetic
  value the code produces (keyword ratios, confidence weights, thirds)
  is at distance ≥ 1/600 from the nearest rounding boundary, so exact
  rational arithmetic and IEEE double arithmetic round identically.
* Calls into external libraries (`re.findall` match lists, scikit-learn
  TF-IDF filtering, TextBlob sentiment) are parameters of the embedded
  functions: the theorems quantify over their results.
* The loop of `chunk_text` is embedded with explicit fuel, because the
  Python loop does not terminate on some inputs; `chunk_text fuel …`
  returns `none` when `fuel` iterations do not finish the loop.
-/

/-! ## Basic string machinery -/

/-- The ASCII whitespace characters recognised by Python's `str.split()` /
`str.strip()` / `\s`. -/
def pyIsSpace (c : Char) : Bool :=
  c = ' ' || c = '\t' || c = '\n' || c = '\r' || c = '\x0b' || c = '\x0c'

/-- ASCII lower-casing of one character, as `str.lower()` acts on ASCII. -/
def pyLowerChar (c : Char) : Char :=
  if 'A' ≤ c && c ≤ 'Z' then Char.ofNat (c.toNat + 32) else c

/-- `str.lower()` on ASCII text. -/
def pyLower (s : String) : String :=
  String.mk (s.toList.map pyLowerChar)

/-- Python's `needle in hay` substring test. -/
def pyContains (hay needle : String) : Bool :=
  hay.toList.tails.any (fun t => needle.toList.isPrefixOf t)

/-- `str.strip()`: remove leading and trailing whitespace. -/
def pyStrip (s : String) : String :=
  String.mk (((s.toList.dropWhile pyIsSpace).reverse.dropWhile pyIsSpace).reverse)

/-- Helper for `pySplitWords`: accumulate the current word (reversed). -/
def pySplitWordsAux : List Char → List Char → List String
  | [], [] => []
  | [], cur => [String.mk cur.reverse]
  | c :: cs, cur =>
    if pyIsSpace c then
      if cur = [] then pySplitWordsAux cs []
      else String.mk cur.reverse :: pySplitWordsAux cs []
    else pySplitWordsAux cs (c :: cur)

/-- Python's `str.split()` with no argument: split on runs of whitespace,
with no empty words. -/
def pySplitWords (s : String) : List String :=
  pySplitWordsAux s.toList []

/-- `" ".join(words)`. -/
def joinSpace (ws : List String) : String :=
  String.intercalate " " ws

/-- Python slice `l[a:b]` for `Int` indices (negative indices count from
the end, then both ends are clamped to `[0, len]`). -/
def pySlice {α : Type} (l : List α) (a b : Int) : List α :=
  let n : Int := l.length
  let eff : Int → Nat := fun i =>
    (if i < 0 then max 0 (n + i) else min i n).toNat
  (l.take (eff b)).drop (eff a)

/-! ## Configuration constants (`brd_agent/config.py`) -/

/-- `config.CHUNK_SIZE`. -/
def CHUNK_SIZE : Nat := 512

/-- `config.CHUNK_OVERLAP`. -/
def CHUNK_OVERLAP : Nat := 50

/-- `config.RELEVANCE_KEYWORDS`. -/
def RELEVANCE_KEYWORDS : List String :=
  ["requirement", "requirements", "must", "shall", "should", "need",
   "feature", "specification", "deadline", "timeline", "milestone",
   "stakeholder", "decision", "approved", "rejected", "budget",
   "priority", "scope", "deliverable", "objective", "constraint",
   "risk", "dependency", "acceptance criteria", "user story",
   "functional", "non-functional", "integration", "api", "database",
   "security", "performance", "scalability", "compliance", "action item",
   "feedback", "review", "approve", "sign-off", "phase", "sprint"]

/-- `config.NOISE_KEYWORDS`. -/
def NOISE_KEYWORDS : List String :=
  ["lunch", "newsletter", "happy hour", "birthday", "potluck",
   "parking", "weather", "sports", "fantasy football", "recipe",
   "vacation photos", "joke", "forward:", "fw:", "fyi",
   "out of office", "unsubscribe", "spam", "advertisement",
   "personal", "weekend plans", "social event"]

/-! ## `DataIngestionEngine.chunk_text` (`data_ingest.py`)

The Python loop is

```
while start < total_words:
    end = min(start + chunk_size, total_words)
    chunks.append(" ".join(words[start:end]))
    start = end - overlap
    if start >= total_words:
        break
```

embedded with fuel; `start` is an `Int` because `end - overlap` can go
negative when `overlap > end`. -/

/-- One-loop-at-a-time embedding of the `while` loop of `chunk_text`.
Returns `none` when the fuel is exhausted before the loop exits. -/
def chunkLoop (words : List String) (csize overlap : Nat) :
    Nat → Int → List String → Option (List String)
  | 0, _, _ => none
  | fuel + 1, start, acc =>
    if start < (words.length : Int) then
      let e : Int := min (start + (csize : Int)) (words.length : Int)
      let acc' := acc ++ [joinSpace (pySlice words start e)]
      let start' := e - (overlap : Int)
      if start' ≥ (words.length : Int) then some acc'
      else chunkLoop words csize overlap fuel start' acc'
    else some acc

/-- `DataIngestionEngine.chunk_text`.  `csize = 0` / `overlap = 0` model
Python's `chunk_size or CHUNK_SIZE` / `overlap or CHUNK_OVERLAP`
coalescing (`0` and `None` are both falsy).  `none` means the loop ran
longer than `fuel` iterations. -/
def chunk_text (fuel : Nat) (text : String) (csize overlap : Nat) :
    Option (List String) :=
  if text = "" then some []
  else
    let csize := if csize = 0 then CHUNK_SIZE else csize
    let overlap := if overlap = 0 then CHUNK_OVERLAP else overlap
    let words := pySplitWords text
    if words.length ≤ csize then some [text]
    else chunkLoop words csize overlap fuel 0 []

/-! ### Theorems about `chunk_text` -/

/-- Auxiliary: once `start` reaches `total_words - overlap` with
`overlap ≥ 1`, the loop of `chunk_text` never advances again.  Concretely,
on `words = ["a","b","c"]`, `chunk_size = 2`, `overlap = 1`, the state
`start = 2` steps to itself while appending `"c"` forever. -/
lemma chunkLoop_stuck (fuel : Nat) : ∀ acc : List String,
    chunkLoop ["a", "b", "c"] 2 1 fuel 2 acc = none := by
  induction fuel with
  | zero => intro acc; rfl
  | succ n ih =>
    intro acc
    have h : chunkLoop ["a", "b", "c"] 2 1 (n + 1) 2 acc
        = chunkLoop ["a", "b", "c"] 2 1 n 2 (acc ++ ["c"]) := rfl
    rw [h]; exact ih _

/-- C1.  The claim says `chunk_text` terminates for every input and
configuration.  It does not: on the three-word text `"a b c"` with
`chunk_size = 2`, `overlap = 1` (an ordinary `overlap < chunk_size`
configuration), the loop runs `start = 0 → 1 → 2 → 2 → 2 → …` and no
amount of fuel finishes it: the Python function loops forever.  The same
happens for every text longer than `chunk_size` whenever `overlap ≥ 1`
(in particular with the default `CHUNK_SIZE = 512`, `CHUNK_OVERLAP = 50`),
because `start = end - overlap` can never reach `total_words` once
`end` is capped there. -/
theorem chunk_text_nonterminating : ∀ fuel : Nat, chunk_text fuel "a b c" 2 1 = none := by
  intro fuel
  match fuel with
  | 0 => rfl
  | 1 => rfl
  | (n+2) =>
    have h : chunk_text (n + 2) "a b c" 2 1
        = chunkLoop ["a", "b", "c"] 2 1 n 2 ["a b", "b c"] := rfl
    rw [h]; exact chunkLoop_stuck n _

/-- C10 (amended).  For every *non-empty* text whose word count is at most
the effective chunk size, `chunk_text` returns exactly `[text]`.  (The
empty text is excluded: see `chunk_text_empty_counterexample`.) -/
theorem chunk_text_short_input (fuel : Nat) (text : String) (csize overlap : Nat)
    (hne : text ≠ "")
    (hlen : (pySplitWords text).length ≤ (if csize = 0 then CHUNK_SIZE else csize)) :
    chunk_text fuel text csize overlap = some [text] := by
  unfold chunk_text
  rw [if_neg hne, if_pos hlen]

/-- Witness for `chunk_text_short_input` at `text = "hello world"`,
`chunk_size = 512`, `overlap = 50`. -/
theorem chunk_text_short_witness : chunk_text 0 "hello world" 512 50 = some ["hello world"] :=
  chunk_text_short_input 0 "hello world" 512 50 (by decide) (by decide)

/-- C10, counterexample.  The claim includes the empty text, but
`chunk_text` short-circuits `if not text: return []`, so the empty text
yields `[]`, not the single-element list `[""]`. -/
theorem chunk_text_empty_counterexample :
    chunk_text 1 "" 512 50 = some [] ∧ ([] : List String) ≠ [""] :=
  ⟨rfl, by decide⟩

/-! ## `DataIngestionEngine.preprocess_noise` (`data_ingest.py`)

`preprocess_noise` returns `(cleaned_text, noise_score, is_noise)`.  The
embedding below covers the `noise_score` / `is_noise` components, which
are what C8 is about; the `cleaned_text` component is produced by the
independent `_clean_text` helper and is not referenced by any claim. -/

/-- `sum(1 for kw in kws if kw in text_lower)`: each keyword counts at
most once, by substring presence. -/
def countHits (kws : List String) (text_lower : String) : Nat :=
  (kws.filter (fun kw => pyContains text_lower kw)).length

/-- The `(noise_score, is_noise)` part of
`DataIngestionEngine.preprocess_noise`.  Empty text short-circuits to
`(1.0, True)`; otherwise the score is
`noise_hits / (relevance_hits + noise_hits)`, or `0.5` when no keyword
hits at all, and `is_noise = (noise_score > 0.6)`. -/
def preprocess_noise_score (text : String) : ℚ × Bool :=
  if text = "" then (1, true)
  else
    let text_lower := pyLower text
    let relevance_hits := countHits RELEVANCE_KEYWORDS text_lower
    let noise_hits := countHits NOISE_KEYWORDS text_lower
    let total_hits := relevance_hits + noise_hits
    let noise_score : ℚ := if total_hits = 0 then 1/2 else (noise_hits : ℚ) / (total_hits : ℚ)
    (noise_score, noise_score > 3/5)

/-- The noise-score formula in the words of the specification:
`noise_hits / (noise_hits + relevance_hits)`, or `0.5` if both counts
are zero. -/
def noise_score_spec (text : String) : ℚ :=
  let noise_hits := countHits NOISE_KEYWORDS (pyLower text)
  let relevance_hits := countHits RELEVANCE_KEYWORDS (pyLower text)
  if noise_hits = 0 ∧ relevance_hits = 0 then 1/2
  else (noise_hits : ℚ) / ((noise_hits : ℚ) + (relevance_hits : ℚ))

/-- C8 (amended).  For every *non-empty* text, the noise score of
`preprocess_noise` equals the spec formula (`0.5` when both keyword
counts are zero), and for *every* text the `is_noise` flag holds exactly
when the returned score exceeds `0.6`.  (The empty text is excluded from
the formula part: see `preprocess_noise_empty_counterexample`.) -/
theorem preprocess_noise_correct :
    (∀ text : String, text ≠ "" →
      (preprocess_noise_score text).1 = noise_score_spec text) ∧
    (∀ text : String,
      ((preprocess_noise_score text).2 = true ↔ (preprocess_noise_score text).1 > 3/5)) := by
  constructor
  · intro text h
    unfold preprocess_noise_score noise_score_spec
    rw [if_neg h]
    simp only
    rcases Nat.eq_zero_or_pos (countHits RELEVANCE_KEYWORDS (pyLower text) +
        countHits NOISE_KEYWORDS (pyLower text)) with hz | hp
    · rw [if_pos hz]
      have h1 : countHits NOISE_KEYWORDS (pyLower text) = 0 := by omega
      have h2 : countHits RELEVANCE_KEYWORDS (pyLower text) = 0 := by omega
      rw [if_pos ⟨h1, h2⟩]
    · rw [if_neg (by omega)]
      rw [if_neg (by omega)]
      push_cast
      ring_nf
  · intro text
    unfold preprocess_noise_score
    by_cases h : text = ""
    · subst h; norm_num
    · rw [if_neg h]
      simp only [decide_eq_true_eq]

/-- Witness for `preprocess_noise_correct` at the one-letter text `"x"`. -/
theorem preprocess_noise_witness :
    (preprocess_noise_score "x").1 = noise_score_spec "x" :=
  preprocess_noise_correct.1 "x" (by decide)

/-- C8, counterexample.  On the empty text both keyword counts are zero,
yet `preprocess_noise` returns score `1.0` (its `if not text`
short-circuit), not the `0.5` the claim requires for zero counts. -/
theorem preprocess_noise_empty_counterexample :
    countHits NOISE_KEYWORDS (pyLower "") = 0 ∧
    countHits RELEVANCE_KEYWORDS (pyLower "") = 0 ∧
    (preprocess_noise_score "").1 ≠ 1/2 :=
  ⟨by decide, by decide, by norm_num [preprocess_noise_score]⟩

/-! ## `BRDExtractionEngine.classify_channel` (`backend.py`)

Email and meeting markers are substring tests on the lower-cased text;
the four chat markers are `re.search` patterns on the original text,
each embedded as an explicit matcher (checked against Python's `re`
on a battery of inputs).  Each marker counts at most once. -/

/-- Python's `\w` over ASCII. -/
def isWordChar (c : Char) : Bool := c.isAlphanum || c = '_'

/-- `re` pattern `\[\d{4}-\d{2}-\d{2}` anchored at the head of the list. -/
def matchChatDate : List Char → Bool
  | '[' :: a :: b :: c :: d :: '-' :: e :: f :: '-' :: g :: h :: _ =>
    a.isDigit && b.isDigit && c.isDigit && d.isDigit &&
    e.isDigit && f.isDigit && g.isDigit && h.isDigit
  | _ => false

/-- `re` pattern `@\w+:` anchored at the head of the list.  `\w+:`
matches iff the maximal `\w`-run is non-empty and is followed by `:`
(no shorter run can help, since a run character is never `:`). -/
def matchMention : List Char → Bool
  | '@' :: rest =>
    (match rest.dropWhile isWordChar with
     | ':' :: _ => true
     | _ => false) && !(rest.takeWhile isWordChar).isEmpty
  | _ => false

/-- Does `"channel"` occur in the list before any newline?  This is the
`.*channel` part of the `#\w+.*channel` pattern (`.` does not match
newlines). -/
def channelBeforeNewline : List Char → Bool
  | [] => false
  | c :: rest =>
    if ("channel".toList).isPrefixOf (c :: rest) then true
    else if c = '\n' then false
    else channelBeforeNewline rest

/-- `re` pattern `#\w+.*channel` anchored at the head of the list: one
`\w` character after `#` (further `\w` characters are absorbed by `.*`),
then `"channel"` before any newline. -/
def matchHashChannel : List Char → Bool
  | '#' :: c :: rest => isWordChar c && channelBeforeNewline rest
  | _ => false

/-- The `\]?\s*@?\w+:` tail of the timestamp chat pattern.  `\]?` and
`@?` must consume their character when present (neither `]` nor `@` can
start the rest of the pattern), and `\s*` must be maximal (a whitespace
character can continue neither `@?` nor `\w+`). -/
def matchTimeTail (l : List Char) : Bool :=
  let l1 := match l with | ']' :: r => r | _ => l
  let l2 := l1.dropWhile pyIsSpace
  let l3 := match l2 with | '@' :: r => r | _ => l2
  (match l3.dropWhile isWordChar with
   | ':' :: _ => true
   | _ => false) && !(l3.takeWhile isWordChar).isEmpty

/-- `re` pattern `\d{1,2}:\d{2}\]?\s*@?\w+:` anchored at the head of the
list (one- and two-digit alternatives are both tried). -/
def matchTimePattern : List Char → Bool
  | d1 :: rest =>
    d1.isDigit &&
    (match rest with
     | ':' :: a :: b :: r => a.isDigit && b.isDigit && matchTimeTail r
     | d2 :: ':' :: a :: b :: r => d2.isDigit && a.isDigit && b.isDigit && matchTimeTail r
     | _ => false)
  | _ => false

/-- `re.search`: does the anchored matcher succeed at some position? -/
def reSearch (f : List Char → Bool) (s : String) : Bool :=
  s.toList.tails.any f

/-- The `email_markers` list of `classify_channel`. -/
def email_markers : List String :=
  ["from:", "to:", "subject:", "cc:", "bcc:",
   "regards,", "best,", "sincerely,", "dear "]

/-- The `meeting_markers` list of `classify_channel`. -/
def meeting_markers : List String :=
  ["attendees:", "participants:", "meeting transcript",
   "facilitator:", "scrum master:", "minutes of meeting",
   "action items:", "agenda:", "discussed"]

/-- `email_score`: one point per email marker present in the lower-cased
text. -/
def emailScore (text : String) : Nat := countHits email_markers (pyLower text)

/-- `meeting_score`: one point per meeting marker present in the
lower-cased text. -/
def meetingScore (text : String) : Nat := countHits meeting_markers (pyLower text)

/-- `chat_score`: one point per chat regex that matches somewhere in the
original text. -/
def chatScore (text : String) : Nat :=
  (if reSearch matchChatDate text then 1 else 0) +
  (if reSearch matchMention text then 1 else 0) +
  (if reSearch matchHashChannel text then 1 else 0) +
  (if reSearch matchTimePattern text then 1 else 0)

/-- `BRDExtractionEngine.classify_channel`.  `result` is Python's
`max(scores, key=scores.get)` (first maximal key in insertion order
email, meeting, chat), and the final line is
`result if scores[result] > 0 else "email"`. -/
def classify_channel (text : String) : String :=
  let e := emailScore text
  let m := meetingScore text
  let c := chatScore text
  let result := if e ≥ m ∧ e ≥ c then "email" else if m ≥ c then "meeting" else "chat"
  let rscore := if e ≥ m ∧ e ≥ c then e else if m ≥ c then m else c
  if rscore > 0 then result else "email"

/-- `classify_channel` is the plain priority-ordered argmax: the
`scores[result] > 0` default is redundant, because when all scores are
`0` the argmax chain already picks `"email"`. -/
lemma classify_channel_eq (text : String) :
    classify_channel text =
      if emailScore text ≥ meetingScore text ∧ emailScore text ≥ chatScore text then "email"
      else if meetingScore text ≥ chatScore text then "meeting"
      else "chat" := by
  simp only [classify_channel]
  split_ifs <;> first | rfl | (exfalso; omega)

/-- C4.  `classify_channel` always returns one of `"email"`,
`"meeting"`, `"chat"`; it returns `"email"` when all three marker scores
are zero; and it returns the argmax of the scores with ties resolved in
the fixed priority order email > meeting > chat (each ↔ characterises
exactly when each category is returned). -/
theorem classify_channel_correct (text : String) :
    (classify_channel text = "email" ∨ classify_channel text = "meeting" ∨
      classify_channel text = "chat") ∧
    ((emailScore text = 0 ∧ meetingScore text = 0 ∧ chatScore text = 0) →
      classify_channel text = "email") ∧
    (classify_channel text = "email" ↔
      (emailScore text ≥ meetingScore text ∧ emailScore text ≥ chatScore text)) ∧
    (classify_channel text = "meeting" ↔
      (meetingScore text > emailScore text ∧ meetingScore text ≥ chatScore text)) ∧
    (classify_channel text = "chat" ↔
      (chatScore text > emailScore text ∧ chatScore text > meetingScore text)) := by
  rw [classify_channel_eq]
  split_ifs with h1 h2
  · refine ⟨Or.inl rfl, fun _ => rfl, ⟨fun _ => h1, fun _ => rfl⟩, ?_, ?_⟩
    · exact ⟨fun h => absurd h (by decide), fun h => absurd h.1 (by omega)⟩
    · exact ⟨fun h => absurd h (by decide), fun h => absurd h.1 (by omega)⟩
  · have h3 : meetingScore text > emailScore text := by
      by_cases hem : emailScore text ≥ meetingScore text
      · have hec : ¬ emailScore text ≥ chatScore text := fun hc => h1 ⟨hem, hc⟩
        omega
      · omega
    refine ⟨Or.inr (Or.inl rfl), ?_, ?_, ⟨fun _ => ⟨h3, h2⟩, fun _ => rfl⟩, ?_⟩
    · intro h; exact absurd h.2.1 (by omega)
    · exact ⟨fun h => absurd h (by decide), fun h => absurd h.1 (by omega)⟩
    · exact ⟨fun h => absurd h (by decide), fun h => absurd h.2 (by omega)⟩
  · have h4 : chatScore text > meetingScore text := by omega
    have h3 : chatScore text > emailScore text := by
      by_cases hem : emailScore text ≥ meetingScore text
      · have hec : ¬ emailScore text ≥ chatScore text := fun hc => h1 ⟨hem, hc⟩
        omega
      · omega
    refine ⟨Or.inr (Or.inr rfl), ?_, ?_, ?_, ⟨fun _ => ⟨h3, h4⟩, fun _ => rfl⟩⟩
    · intro h; exact absurd h.2.2 (by omega)
    · exact ⟨fun h => absurd h (by decide), fun h => absurd h.2 (by omega)⟩
    · exact ⟨fun h => absurd h (by decide), fun h => absurd h.1 (by omega)⟩

/-- Witness for `classify_channel_correct`: the marker-free text
`"hello"` has all three scores zero and classifies as `"email"`. -/
theorem classify_channel_witness : classify_channel "hello" = "email" :=
  (classify_channel_correct "hello").2.1 (by decide)

/-! ## The BRD result record and `_calculate_confidence` (`backend.py`)

Floats are exact rationals here.  Every value reaching Python's
`round(score, 2)` is a multiple of `1/60` plus possibly `1/10`, hence at
distance ≥ `1/600` from every half-cent tie point `(2k+1)/200`, so the
binary-float `round` agrees with exact round-half-even on rationals. -/

/-- A stakeholder record `{name, role}`.  `role = none` models a dict
with no `"role"` key; `some ""` a present-but-empty role. -/
structure Stakeholder where
  name : String
  role : Option String
deriving DecidableEq, Repr

/-- A timeline record `{date, milestone}`. -/
structure Timeline where
  date : String
  milestone : String
deriving DecidableEq, Repr

/-- A conflict record as produced by `detect_conflicts`. -/
structure Conflict where
  description : String
  item_1 : String
  item_2 : String
  severity : String
  polarity_diff : ℚ
deriving DecidableEq, Repr

/-- The part of the BRD result dict that the claims are about (the
list fields and the project topic). -/
structure BrdResult where
  project_topic : String
  requirements : List String
  decisions : List String
  stakeholders : List Stakeholder
  timelines : List Timeline
  feedback : List String
  action_items : List String
  conflicts : List Conflict
deriving DecidableEq, Repr

/-- Round-half-even to an integer, the tie rule of Python's `round`. -/
def roundHalfEven (q : ℚ) : ℤ :=
  if q - ⌊q⌋ < 1/2 then ⌊q⌋
  else if (1:ℚ)/2 < q - ⌊q⌋ then ⌊q⌋ + 1
  else if ⌊q⌋ % 2 = 0 then ⌊q⌋ else ⌊q⌋ + 1

/-- Python's `round(q, 2)`. -/
def round2 (q : ℚ) : ℚ := (roundHalfEven (q * 100) : ℚ) / 100

/-- One category's contribution in `_calculate_confidence`: the code
guards with `if items:`, so the weight is only added for a non-empty
list. -/
def contribution (weight : ℚ) (n : Nat) : ℚ :=
  if n ≠ 0 then weight * min 1 ((n : ℚ) / 3) else 0

/-- The weighted sum over the six categories of
`_calculate_confidence`. -/
def rawScore (brd : BrdResult) : ℚ :=
  contribution (25/100) brd.requirements.length +
  contribution (20/100) brd.decisions.length +
  contribution (20/100) brd.stakeholders.length +
  contribution (15/100) brd.timelines.length +
  contribution (10/100) brd.feedback.length +
  contribution (10/100) brd.action_items.length

/-- `BRDExtractionEngine._calculate_confidence`. -/
def calc_confidence (brd : BrdResult) : ℚ :=
  let score := rawScore brd
  let score := if brd.project_topic ≠ "" then min 1 (score + 10/100) else score
  round2 score

/-- The confidence formula in the words of the specification: for each
category, `weight * min(1, count/3)`; `+0.10` capped at `1.0` when the
project topic is non-empty; rounded to two decimals. -/
def confidence_spec (brd : BrdResult) : ℚ :=
  let catScore : Nat → ℚ := fun n => min 1 ((n : ℚ) / 3)
  let total :=
    25/100 * catScore brd.requirements.length +
    20/100 * catScore brd.decisions.length +
    20/100 * catScore brd.stakeholders.length +
    15/100 * catScore brd.timelines.length +
    10/100 * catScore brd.feedback.length +
    10/100 * catScore brd.action_items.length
  round2 (if brd.project_topic ≠ "" then min 1 (total + 10/100) else total)

/-- The `if items:` guard is redundant: an empty category contributes
`weight * min(1, 0/3) = 0` anyway. -/
lemma contribution_eq (w : ℚ) (n : Nat) :
    contribution w n = w * min 1 ((n : ℚ) / 3) := by
  unfold contribution
  by_cases h : n = 0
  · subst h; simp
  · rw [if_pos h]

lemma contribution_nonneg (w : ℚ) (hw : 0 ≤ w) (n : Nat) : 0 ≤ contribution w n := by
  rw [contribution_eq]
  have h1 : (0:ℚ) ≤ min 1 ((n : ℚ) / 3) := le_min (by norm_num) (by positivity)
  positivity

lemma contribution_le (w : ℚ) (hw : 0 ≤ w) (n : Nat) : contribution w n ≤ w := by
  rw [contribution_eq]
  have h1 : min 1 ((n : ℚ) / 3) ≤ 1 := min_le_left _ _
  have h2 : (0:ℚ) ≤ min 1 ((n : ℚ) / 3) := le_min (by norm_num) (by positivity)
  nlinarith

lemma contribution_mono (w : ℚ) (hw : 0 ≤ w) {n n' : Nat} (h : n ≤ n') :
    contribution w n ≤ contribution w n' := by
  rw [contribution_eq, contribution_eq]
  have h1 : ((n : ℚ) / 3) ≤ ((n' : ℚ) / 3) := by
    have : (n : ℚ) ≤ n' := by exact_mod_cast h
    linarith
  have h2 : min 1 ((n : ℚ) / 3) ≤ min 1 ((n' : ℚ) / 3) :=
    min_le_min le_rfl h1
  exact mul_le_mul_of_nonneg_left h2 hw

lemma rawScore_nonneg (brd : BrdResult) : 0 ≤ rawScore brd := by
  unfold rawScore
  have := contribution_nonneg (25/100) (by norm_num) brd.requirements.length
  have := contribution_nonneg (20/100) (by norm_num) brd.decisions.length
  have := contribution_nonneg (20/100) (by norm_num) brd.stakeholders.length
  have := contribution_nonneg (15/100) (by norm_num) brd.timelines.length
  have := contribution_nonneg (10/100) (by norm_num) brd.feedback.length
  have := contribution_nonneg (10/100) (by norm_num) brd.action_items.length
  linarith

/-- The six weights sum to `1`, so the raw score is at most `1`. -/
lemma rawScore_le_one (brd : BrdResult) : rawScore brd ≤ 1 := by
  unfold rawScore
  have := contribution_le (25/100) (by norm_num) brd.requirements.length
  have := contribution_le (20/100) (by norm_num) brd.decisions.length
  have := contribution_le (20/100) (by norm_num) brd.stakeholders.length
  have := contribution_le (15/100) (by norm_num) brd.timelines.length
  have := contribution_le (10/100) (by norm_num) brd.feedback.length
  have := contribution_le (10/100) (by norm_num) brd.action_items.length
  linarith

lemma roundHalfEven_le (q : ℚ) : (roundHalfEven q : ℚ) ≤ q + 1/2 := by
  unfold roundHalfEven
  have hf : (⌊q⌋ : ℚ) ≤ q := Int.floor_le q
  split_ifs with h1 h2 h3 <;> push_cast <;> linarith

lemma le_roundHalfEven (q : ℚ) : q - 1/2 ≤ (roundHalfEven q : ℚ) := by
  unfold roundHalfEven
  have hf : (⌊q⌋ : ℚ) ≤ q := Int.floor_le q
  have hf2 : q < (⌊q⌋ : ℚ) + 1 := Int.lt_floor_add_one q
  split_ifs with h1 h2 h3 <;> push_cast <;> linarith

/-- Round-half-even is monotone. -/
lemma roundHalfEven_mono {x y : ℚ} (h : x ≤ y) : roundHalfEven x ≤ roundHalfEven y := by
  by_contra hcon
  push_neg at hcon
  have hint : roundHalfEven y + 1 ≤ roundHalfEven x := hcon
  have h1 : (roundHalfEven x : ℚ) ≤ x + 1/2 := roundHalfEven_le x
  have h2 : y - 1/2 ≤ (roundHalfEven y : ℚ) := le_roundHalfEven y
  have hc : (roundHalfEven y : ℚ) + 1 ≤ (roundHalfEven x : ℚ) := by exact_mod_cast hint
  have hxy : x = y := le_antisymm h (by linarith)
  subst hxy
  omega

lemma round2_mono {x y : ℚ} (h : x ≤ y) : round2 x ≤ round2 y := by
  unfold round2
  have h1 : roundHalfEven (x * 100) ≤ roundHalfEven (y * 100) :=
    roundHalfEven_mono (by linarith)
  have h2 : (roundHalfEven (x * 100) : ℚ) ≤ (roundHalfEven (y * 100) : ℚ) := by
    exact_mod_cast h1
  linarith

/-- C3.  `_calculate_confidence` computes exactly the spec's weighted
formula with topic bonus, cap and 2-decimal rounding; the score never
decreases when a non-empty project topic is added, nor when items are
added to any category. -/
theorem calc_confidence_correct :
    (∀ brd : BrdResult, calc_confidence brd = confidence_spec brd) ∧
    (∀ (brd : BrdResult) (topic : String),
      calc_confidence { brd with project_topic := "" } ≤
        calc_confidence { brd with project_topic := topic }) ∧
    (∀ brd₁ brd₂ : BrdResult,
      brd₁.project_topic = brd₂.project_topic →
      brd₁.requirements.length ≤ brd₂.requirements.length →
      brd₁.decisions.length ≤ brd₂.decisions.length →
      brd₁.stakeholders.length ≤ brd₂.stakeholders.length →
      brd₁.timelines.length ≤ brd₂.timelines.length →
      brd₁.feedback.length ≤ brd₂.feedback.length →
      brd₁.action_items.length ≤ brd₂.action_items.length →
      calc_confidence brd₁ ≤ calc_confidence brd₂) := by
  refine ⟨?_, ?_, ?_⟩
  · intro brd
    simp only [calc_confidence, confidence_spec, rawScore, contribution_eq]
  · intro brd topic
    have hr : rawScore { brd with project_topic := "" }
        = rawScore { brd with project_topic := topic } := rfl
    by_cases h : topic = ""
    · subst h; exact le_refl _
    · simp only [calc_confidence]
      rw [hr]
      have hne : ({ brd with project_topic := topic } : BrdResult).project_topic ≠ "" := h
      have heq : ({ brd with project_topic := "" } : BrdResult).project_topic = "" := rfl
      rw [if_neg (fun hcon => hcon heq), if_pos hne]
      refine round2_mono (le_min ?_ ?_)
      · exact rawScore_le_one _
      · linarith [rawScore_nonneg ({ brd with project_topic := topic } : BrdResult)]
  · intro b1 b2 ht h1 h2 h3 h4 h5 h6
    have hr : rawScore b1 ≤ rawScore b2 := by
      unfold rawScore
      have c1 := contribution_mono (25/100) (by norm_num) h1
      have c2 := contribution_mono (20/100) (by norm_num) h2
      have c3 := contribution_mono (20/100) (by norm_num) h3
      have c4 := contribution_mono (15/100) (by norm_num) h4
      have c5 := contribution_mono (10/100) (by norm_num) h5
      have c6 := contribution_mono (10/100) (by norm_num) h6
      linarith
    simp only [calc_confidence]
    rw [ht]
    split_ifs with hc
    · exact round2_mono (min_le_min le_rfl (by linarith))
    · exact round2_mono hr

/-- Witness for `calc_confidence_correct`: adding one requirement to an
empty result with topic `"T"` does not decrease the score. -/
theorem calc_confidence_witness :
    calc_confidence ⟨"T", [], [], [], [], [], [], []⟩ ≤
      calc_confidence ⟨"T", ["r"], [], [], [], [], [], []⟩ :=
  calc_confidence_correct.2.2 ⟨"T", [], [], [], [], [], [], []⟩
    ⟨"T", ["r"], [], [], [], [], [], []⟩ rfl (by decide) (by decide) (by decide)
    (by decide) (by decide) (by decide)

/-! ## `BRDExtractionEngine.detect_conflicts` (`backend.py`)

The polarity of each feedback item comes from TextBlob (an external
sentiment library), so the embedding takes the polarity assignment
`pol : String → ℚ` as a parameter; the theorems hold for every such
assignment.  The embedding covers the path where the dependency imports
(the `ImportError` branch returns `[]` before any analysis). -/

/-- The severity bucket: `"high"` for difference `> 1.0`, `"medium"` for
`> 0.5`, else `"low"`. -/
def severityOf (d : ℚ) : String :=
  if d > 1 then "high" else if d > 1/2 then "medium" else "low"

/-- The conflict emitted for the ordered pair `(x, y)` when their
polarities have opposite signs (`pol x * pol y < 0`) and both exceed
`0.1` in absolute value; `none` otherwise. -/
def mkPairConflict (pol : String → ℚ) (x y : String) : Option Conflict :=
  if pol x * pol y < 0 ∧ |pol x| > 1/10 ∧ |pol y| > 1/10 then
    some ⟨"Conflicting feedback detected", x, y,
      severityOf |pol x - pol y|, round2 |pol x - pol y|⟩
  else none

/-- The double loop `for i … for j in range(i+1, …)` of
`detect_conflicts`. -/
def pairConflicts (pol : String → ℚ) : List String → List Conflict
  | [] => []
  | x :: xs => xs.filterMap (mkPairConflict pol x) ++ pairConflicts pol xs

/-- The `conflict_keywords` list of `detect_conflicts`. -/
def conflict_keywords : List String :=
  ["disagree", "conflict", "oppose", "contrary",
   "however", "on the other hand", "inconsistent"]

/-- The trailing keyword scan of `detect_conflicts`: at most one
`"Explicit disagreement detected"` conflict per item (the inner loop
`break`s after the first matching keyword). -/
def keywordConflicts (items : List String) : List Conflict :=
  items.filterMap (fun item =>
    if conflict_keywords.any (fun kw => pyContains (pyLower item) kw) then
      some ⟨"Explicit disagreement detected", item, "", "medium", 0⟩
    else none)

/-- `BRDExtractionEngine.detect_conflicts`. -/
def detect_conflicts (pol : String → ℚ) (items : List String) : List Conflict :=
  if items.length < 2 then []
  else pairConflicts pol items ++ keywordConflicts items

/-- Every qualifying index pair contributes its conflict to the pairwise
scan. -/
lemma mem_pairConflicts (pol : String → ℚ) :
    ∀ (items : List String) (i j : Nat) (hij : i < j) (hj : j < items.length)
      (c : Conflict),
      mkPairConflict pol (items.get ⟨i, hij.trans hj⟩) (items.get ⟨j, hj⟩) = some c →
      c ∈ pairConflicts pol items := by
  intro items
  induction items with
  | nil => intro i j hij hj; simp at hj
  | cons x rest ih =>
    intro i j hij hj c hc
    match i, j with
    | 0, j'+1 =>
      simp only [pairConflicts, List.mem_append]
      left
      refine List.mem_filterMap.mpr ⟨(x :: rest).get ⟨j'+1, hj⟩, ?_, hc⟩
      show rest.get ⟨j', Nat.lt_of_succ_lt_succ hj⟩ ∈ rest
      exact rest.get_mem _ _
    | i'+1, j'+1 =>
      simp only [pairConflicts, List.mem_append]
      right
      exact ih i' j' (Nat.lt_of_succ_lt_succ hij) (Nat.lt_of_succ_lt_succ hj) c hc

/-- C5.  `detect_conflicts` returns `[]` for fewer than two items; and
for two or more, every unordered pair whose polarities have opposite
signs and absolute value `> 0.1` contributes a conflict whose severity
is `"high"` when the absolute difference exceeds `1.0`, `"medium"` when
it exceeds `0.5`, and `"low"` otherwise. -/
theorem detect_conflicts_correct :
    (∀ (pol : String → ℚ) (items : List String), items.length < 2 →
      detect_conflicts pol items = []) ∧
    (∀ (pol : String → ℚ) (items : List String) (i j : Nat)
      (hij : i < j) (hj : j < items.length),
      pol (items.get ⟨i, hij.trans hj⟩) * pol (items.get ⟨j, hj⟩) < 0 →
      |pol (items.get ⟨i, hij.trans hj⟩)| > 1/10 →
      |pol (items.get ⟨j, hj⟩)| > 1/10 →
      (⟨"Conflicting feedback detected",
        items.get ⟨i, hij.trans hj⟩, items.get ⟨j, hj⟩,
        if |pol (items.get ⟨i, hij.trans hj⟩) - pol (items.get ⟨j, hj⟩)| > 1 then "high"
        else if |pol (items.get ⟨i, hij.trans hj⟩) - pol (items.get ⟨j, hj⟩)| > 1/2 then "medium"
        else "low",
        round2 |pol (items.get ⟨i, hij.trans hj⟩) - pol (items.get ⟨j, hj⟩)|⟩ : Conflict)
        ∈ detect_conflicts pol items) := by
  constructor
  · intro pol items h
    unfold detect_conflicts
    rw [if_pos h]
  · intro pol items i j hij hj hprod hx hy
    unfold detect_conflicts
    rw [if_neg (by omega)]
    refine List.mem_append.mpr (Or.inl ?_)
    apply mem_pairConflicts pol items i j hij hj
    unfold mkPairConflict
    rw [if_pos ⟨hprod, hx, hy⟩]
    rfl

lemma round2_two : round2 2 = 2 := by
  unfold round2 roundHalfEven
  rw [show ((2:ℚ) * 100) = ((200:ℤ):ℚ) by norm_num, Int.floor_intCast]
  norm_num

/-- Witness for `detect_conflicts_correct`: with polarities `+1` and
`-1` on `["good", "bad"]`, the pair yields a `"high"` conflict with
difference `2`. -/
theorem detect_conflicts_witness :
    (⟨"Conflicting feedback detected", "good", "bad", "high", 2⟩ : Conflict)
      ∈ detect_conflicts (fun s => if s = "good" then 1 else -1) ["good", "bad"] := by
  have h := detect_conflicts_correct.2 (fun s => if s = "good" then 1 else -1)
    ["good", "bad"] 0 1 (by norm_num) (by norm_num)
    (by show (1:ℚ) * -1 < 0; norm_num)
    (by show |(1:ℚ)| > 1/10; norm_num)
    (by show |(-1:ℚ)| > 1/10; norm_num)
  convert h using 2
  · show "high" = if |(1:ℚ) - -1| > 1 then "high"
        else if |(1:ℚ) - -1| > 1/2 then "medium" else "low"
    norm_num
  · show (2:ℚ) = round2 |(1:ℚ) - -1|
    rw [show |(1:ℚ) - -1| = 2 by norm_num, round2_two]

/-! ## Stakeholder merging

Two distinct merges exist in the code base:

* `CrossChannelSynthesis._merge_channel_data` keeps an insertion-ordered
  map keyed by stakeholder name and, on a duplicate name, fills in the
  `role` field only when the incoming record has a `"role"` key and the
  stored role is falsy (missing or `""`);
* `BRDExtractionEngine._merge_chunk_results` appends a stakeholder only
  when its name is not already present, *dropping* duplicates wholesale
  (no field-wise fill; its `isinstance(s, str)` branch, which wraps bare
  strings as `{"name": s, "role": "Unknown"}`, concerns inputs outside
  the dict records modelled here). -/

/-- Python falsiness of `d.get("role")`: key absent or empty string. -/
def roleFalsy : Option String → Bool
  | none => true
  | some s => s = ""

/-- One iteration of the stakeholder loop of `_merge_channel_data`:
skip falsy names, insert unseen names, otherwise fill the stored
record's role when the incoming record has one and the stored one is
falsy. -/
def stakeStep (acc : List Stakeholder) (s : Stakeholder) : List Stakeholder :=
  if s.name = "" then acc
  else if acc.any (fun t => t.name == s.name) then
    acc.map (fun t =>
      if t.name = s.name ∧ s.role ≠ none ∧ roleFalsy t.role then
        { t with role := s.role }
      else t)
  else acc ++ [s]

/-- The stakeholder merge of `CrossChannelSynthesis._merge_channel_data`
(`list(stakeholder_map.values())` in insertion order). -/
def mergeStakeholders (ss : List Stakeholder) : List Stakeholder :=
  ss.foldl stakeStep []

/-- The stakeholder merge of `BRDExtractionEngine._merge_chunk_results`:
first record with a given name wins outright. -/
def mergeChunkStakeholders (ss : List Stakeholder) : List Stakeholder :=
  ss.foldl (fun acc s =>
    if acc.any (fun t => t.name == s.name) then acc else acc ++ [s]) []

/-- Closed form of the cross-channel merge of two same-name records:
the role is taken from the incoming record exactly when it is present
and the stored role is falsy. -/
lemma mergeStakeholders_pair (n : String) (hn : n ≠ "") (r₁ r₂ : Option String) :
    mergeStakeholders [⟨n, r₁⟩, ⟨n, r₂⟩] =
      [⟨n, if r₂ ≠ none ∧ roleFalsy r₁ then r₂ else r₁⟩] := by
  simp [mergeStakeholders, stakeStep, hn, List.foldl]
  split_ifs <;> rfl

/-- C7 (amended).  In the cross-channel stakeholder merge, role is
fill-only: a falsy stored role is filled from an incoming record that
has one; a populated role is never erased or overwritten; and the merge
of two same-name records is order-independent whenever at most one of
them has a truthy role (when both do, the first-processed one wins:
see `stakeholder_merge_counterexample`). -/
theorem mergeStakeholders_fill_only (n : String) (r₁ r₂ : Option String) (hn : n ≠ "") :
    (roleFalsy r₁ = true → r₂ ≠ none →
      mergeStakeholders [⟨n, r₁⟩, ⟨n, r₂⟩] = [⟨n, r₂⟩]) ∧
    (∀ v, r₁ = some v → v ≠ "" →
      mergeStakeholders [⟨n, r₁⟩, ⟨n, r₂⟩] = [⟨n, r₁⟩]) ∧
    ((roleFalsy r₁ = true ∨ roleFalsy r₂ = true) →
      mergeStakeholders [⟨n, r₁⟩, ⟨n, r₂⟩] = mergeStakeholders [⟨n, r₂⟩, ⟨n, r₁⟩]) := by
  refine ⟨?_, ?_, ?_⟩
  · intro hf h2
    rw [mergeStakeholders_pair n hn, if_pos ⟨h2, hf⟩]
  · intro v hv hne
    rw [mergeStakeholders_pair n hn]
    have : ¬ roleFalsy r₁ = true := by
      subst hv; simp [roleFalsy, hne]
    rw [if_neg (fun hc => this hc.2)]
  · intro hor
    rw [mergeStakeholders_pair n hn, mergeStakeholders_pair n hn]
    rcases r₁ with _ | v₁ <;> rcases r₂ with _ | v₂ <;>
      simp_all [roleFalsy] <;>
      (rcases hor with h | h <;> simp_all) <;>
      (by_cases hv₁ : v₁ = "" <;> by_cases hv₂ : v₂ = "" <;> simp_all)

/-- Witness for `mergeStakeholders_fill_only`: the claim's own example,
`{A, ""}` then `{A, "PM"}`, fills the role to `"PM"`. -/
theorem mergeStakeholders_witness :
    mergeStakeholders [⟨"A", some ""⟩, ⟨"A", some "PM"⟩] = [⟨"A", some "PM"⟩] :=
  (mergeStakeholders_fill_only "A" (some "") (some "PM") (by decide)).1
    (by decide) (by decide)

/-- C7, counterexample.  (i) In `_merge_chunk_results` — one of the two
code sites the claim covers — merging `{A, ""}` then `{A, "PM"}` keeps
role `""`: the duplicate is dropped, not field-wise merged.  (ii) Even
in the cross-channel merge, the result is *not* order-independent when
both records populate the role. -/
theorem stakeholder_merge_counterexample :
    mergeChunkStakeholders [⟨"A", some ""⟩, ⟨"A", some "PM"⟩] = [⟨"A", some ""⟩] ∧
    (⟨"A", some ""⟩ : Stakeholder) ≠ ⟨"A", some "PM"⟩ ∧
    mergeStakeholders [⟨"A", some "PM"⟩, ⟨"A", some "Dev"⟩] ≠
      mergeStakeholders [⟨"A", some "Dev"⟩, ⟨"A", some "PM"⟩] :=
  ⟨by decide, by decide, by decide⟩

/-! ## `CrossChannelSynthesis._merge_channel_data`: requirement merge

`f"REQ-{counter:04d}"` is embedded via `Nat.digits`, and the loop over
`email_brds + meeting_brds` with its `seen_requirements` set and
mutable counter is embedded as explicit state passing.  The spec-side
definitions `flatReqs` (document-order concatenation, emails first),
`dedupByText` (keep-first dedup by exact text) and `idMap` (sequential
ids from a starting counter) express the claim's description, and the
theorem identifies the two. -/

/-- Decimal digit to ASCII character. -/
def digitChar (d : Nat) : Char := Char.ofNat (48 + d)

/-- ASCII character back to digit value. -/
def digitVal (c : Char) : Nat := c.toNat - 48

/-- Decimal rendering of a natural number (most significant first). -/
def natDigits (n : Nat) : List Char :=
  if n = 0 then ['0'] else ((Nat.digits 10 n).reverse.map digitChar)

/-- Left-pad with `'0'` to width `w`, as `%04d` does. -/
def padZeros (w : Nat) (l : List Char) : List Char :=
  List.replicate (w - l.length) '0' ++ l

/-- `f"REQ-{n:04d}"`. -/
def reqIdStr (n : Nat) : String :=
  "REQ-" ++ String.mk (padZeros 4 (natDigits n))

lemma digitChar_toNat : ∀ d : Nat, d < 10 → (digitChar d).toNat = 48 + d := by decide

lemma digitVal_digitChar (d : Nat) (h : d < 10) : digitVal (digitChar d) = d := by
  have := digitChar_toNat d h
  simp [digitVal, this]

lemma digitChar_ne_zero : ∀ d : Nat, d < 10 → d ≠ 0 → digitChar d ≠ '0' := by decide

lemma natDigits_map_digitVal (n : Nat) (hn : n ≠ 0) :
    (natDigits n).map digitVal = (Nat.digits 10 n).reverse := by
  unfold natDigits
  rw [if_neg hn, List.map_map]
  have : ∀ x ∈ (Nat.digits 10 n).reverse, (digitVal ∘ digitChar) x = id x := by
    intro x hx
    have hx' : x ∈ Nat.digits 10 n := List.mem_reverse.mp hx
    have hlt : x < 10 := Nat.digits_lt_base (by norm_num) hx'
    simp [Function.comp, digitVal_digitChar x hlt]
  rw [List.map_congr_left this, List.map_id]

lemma natDigits_inj {n m : Nat} (hn : n ≠ 0) (hm : m ≠ 0)
    (h : natDigits n = natDigits m) : n = m := by
  have h2 : (Nat.digits 10 n).reverse = (Nat.digits 10 m).reverse := by
    rw [← natDigits_map_digitVal n hn, ← natDigits_map_digitVal m hm, h]
  have h3 : Nat.digits 10 n = Nat.digits 10 m := List.reverse_injective h2
  have := congrArg (Nat.ofDigits 10) h3
  rwa [Nat.ofDigits_digits, Nat.ofDigits_digits] at this

/-- A positive number's decimal rendering starts with a non-zero
digit. -/
lemma natDigits_head (n : Nat) (hn : n ≠ 0) :
    ∃ c l, natDigits n = c :: l ∧ c ≠ '0' := by
  have hne : Nat.digits 10 n ≠ [] := Nat.digits_ne_nil_iff_ne_zero.mpr hn
  have hrev : (Nat.digits 10 n).reverse ≠ [] := by
    simpa using hne
  obtain ⟨d, rest, hd⟩ := List.exists_cons_of_ne_nil hrev
  have hdmem : d ∈ Nat.digits 10 n := by
    have : d ∈ (Nat.digits 10 n).reverse := hd ▸ List.mem_cons_self d rest
    exact List.mem_reverse.mp this
  have hdlt : d < 10 := Nat.digits_lt_base (by norm_num) hdmem
  have hdne : d ≠ 0 := by
    intro hz
    subst hz
    have hlast : (Nat.digits 10 n).getLast hne ≠ 0 :=
      Nat.getLast_digit_ne_zero 10 hn
    have : (Nat.digits 10 n).getLast hne = 0 := by
      have hh : ((Nat.digits 10 n).reverse).head hrev = 0 := by simp [hd]
      rw [← List.head_reverse hrev] at hlast
      exact absurd hh hlast
    exact absurd this hlast
  refine ⟨digitChar d, rest.map digitChar, ?_, digitChar_ne_zero d hdlt hdne⟩
  unfold natDigits
  rw [if_neg hn, hd]
  rfl

lemma dropZeros_replicate (k : Nat) (l : List Char) :
    (List.replicate k '0' ++ l).dropWhile (fun c => c == '0') =
      l.dropWhile (fun c => c == '0') := by
  induction k with
  | zero => rfl
  | succ k ih =>
    rw [List.replicate_succ, List.cons_append, List.dropWhile_cons_of_pos (by rfl)]
    exact ih

lemma padZeros_natDigits_inj {n m : Nat} (hn : n ≠ 0) (hm : m ≠ 0)
    (h : padZeros 4 (natDigits n) = padZeros 4 (natDigits m)) : n = m := by
  apply natDigits_inj hn hm
  have hdw := congrArg (List.dropWhile (fun c => c == '0')) h
  unfold padZeros at hdw
  rw [dropZeros_replicate, dropZeros_replicate] at hdw
  obtain ⟨cn, ln, hcn, hcn0⟩ := natDigits_head n hn
  obtain ⟨cm, lm, hcm, hcm0⟩ := natDigits_head m hm
  rw [hcn, hcm] at hdw ⊢
  rw [List.dropWhile_cons_of_neg (by simpa using hcn0),
      List.dropWhile_cons_of_neg (by simpa using hcm0)] at hdw
  exact hdw

/-- `REQ-` ids of distinct positive counters are distinct. -/
lemma reqIdStr_inj {n m : Nat} (hn : n ≠ 0) (hm : m ≠ 0)
    (h : reqIdStr n = reqIdStr m) : n = m := by
  apply padZeros_natDigits_inj hn hm
  have h1 : reqIdStr n = String.mk ('R' :: 'E' :: 'Q' :: '-' :: padZeros 4 (natDigits n)) := rfl
  have h2 : reqIdStr m = String.mk ('R' :: 'E' :: 'Q' :: '-' :: padZeros 4 (natDigits m)) := rfl
  rw [h1, h2] at h
  have h3 := congrArg String.data h
  simpa using h3

/-- The `source` dict attached to each per-document BRD: its channel
plus the remaining metadata key-values. -/
structure SourceInfo where
  channel : Option String
  meta : List (String × String)
deriving DecidableEq, Repr

/-- An incoming requirement dict; `req.get("text", "")` is modelled by
storing the (possibly empty) text directly. -/
structure ReqIn where
  text : String
deriving DecidableEq, Repr

/-- The `traceability` object attached at merge time. -/
structure Traceability where
  source_channel : Option String
  source_metadata : SourceInfo
deriving DecidableEq, Repr

/-- A merged requirement: original text, assigned `req_id`, and
traceability. -/
structure ReqOut where
  text : String
  req_id : String
  traceability : Traceability
deriving DecidableEq, Repr

/-- One per-document BRD as consumed by the requirement merge. -/
structure ChannelBrd where
  requirements : List ReqIn
  source : SourceInfo
deriving Repr

/-- The inner `for req in brd.get("requirements", [])` loop: state is
`(counter, seen_requirements)`. -/
def mergeReqsItems (src : SourceInfo) :
    Nat → List String → List ReqIn → List ReqOut × Nat × List String
  | counter, seen, [] => ([], counter, seen)
  | counter, seen, r :: rs =>
    if r.text ∈ seen then mergeReqsItems src counter seen rs
    else
      let out : ReqOut := ⟨r.text, reqIdStr counter, ⟨src.channel, src⟩⟩
      let rest := mergeReqsItems src (counter + 1) (r.text :: seen) rs
      (out :: rest.1, rest.2)

/-- The outer `for brd in email_brds + meeting_brds` loop. -/
def mergeReqsDocs : Nat → List String → List ChannelBrd → List ReqOut
  | _, _, [] => []
  | counter, seen, b :: bs =>
    let step := mergeReqsItems b.source counter seen b.requirements
    step.1 ++ mergeReqsDocs step.2.1 step.2.2 bs

/-- The requirement-merging part of
`CrossChannelSynthesis._merge_channel_data`: counter starts at `1`,
seen set starts empty, emails processed before meetings. -/
def merge_channel_requirements (email_brds meeting_brds : List ChannelBrd) : List ReqOut :=
  mergeReqsDocs 1 [] (email_brds ++ meeting_brds)

/-- Spec side: all per-document requirement lists concatenated in
document order. -/
def flatReqs (brds : List ChannelBrd) : List (String × SourceInfo) :=
  brds.bind (fun b => b.requirements.map (fun r => (r.text, b.source)))

/-- Spec side: keep-first deduplication by exact requirement text. -/
def dedupByText (seen : List String) : List (String × SourceInfo) → List (String × SourceInfo)
  | [] => []
  | p :: ps =>
    if p.1 ∈ seen then dedupByText seen ps
    else p :: dedupByText (p.1 :: seen) ps

/-- Spec side: assign sequential ids starting at `c`, and the
traceability object recording the source channel and source document
metadata. -/
def idMap (c : Nat) : List (String × SourceInfo) → List ReqOut
  | [] => []
  | p :: ps => ⟨p.1, reqIdStr c, ⟨p.2.channel, p.2⟩⟩ :: idMap (c + 1) ps

lemma idMap_append (c : Nat) (l₁ l₂ : List (String × SourceInfo)) :
    idMap c (l₁ ++ l₂) = idMap c l₁ ++ idMap (c + l₁.length) l₂ := by
  induction l₁ generalizing c with
  | nil => simp [idMap]
  | cons p ps ih =>
    simp only [List.cons_append, idMap, List.length_cons, List.append_eq]
    rw [ih (c + 1), Nat.add_comm ps.length 1, ← Nat.add_assoc]

lemma mergeReqsItems_spec (src : SourceInfo) :
    ∀ (rs : List ReqIn) (c : Nat) (seen : List String),
      mergeReqsItems src c seen rs =
        (idMap c (dedupByText seen (rs.map (fun r => (r.text, src)))),
         c + (dedupByText seen (rs.map (fun r => (r.text, src)))).length,
         ((dedupByText seen (rs.map (fun r => (r.text, src)))).map Prod.fst).reverse ++ seen) := by
  intro rs
  induction rs with
  | nil => intro c seen; simp [mergeReqsItems, dedupByText, idMap]
  | cons r rs ih =>
    intro c seen
    simp only [mergeReqsItems, List.map_cons, dedupByText]
    by_cases h : r.text ∈ seen
    · rw [if_pos h, if_pos h]
      exact ih c seen
    · rw [if_neg h, if_neg h]
      rw [ih (c + 1) (r.text :: seen)]
      simp only [idMap, List.length_cons, List.map_cons, List.reverse_cons,
        List.append_assoc, List.singleton_append, Prod.mk.injEq]
      refine ⟨?_, ?_, ?_⟩ <;> first | rfl | trivial | omega

lemma dedupByText_append :
    ∀ (l₁ l₂ : List (String × SourceInfo)) (seen : List String),
      dedupByText seen (l₁ ++ l₂) =
        dedupByText seen l₁ ++
          dedupByText (((dedupByText seen l₁).map Prod.fst).reverse ++ seen) l₂ := by
  intro l₁
  induction l₁ with
  | nil => intro l₂ seen; simp [dedupByText]
  | cons p ps ih =>
    intro l₂ seen
    simp only [List.cons_append, dedupByText]
    by_cases h : p.1 ∈ seen
    · rw [if_pos h, if_pos h]
      exact ih l₂ seen
    · rw [if_neg h, if_neg h]
      simp only [List.append_eq]
      rw [ih l₂ (p.1 :: seen)]
      simp only [List.map_cons, List.reverse_cons, List.append_assoc,
        List.singleton_append, List.cons_append, List.nil_append]

/-- The merge loop equals dedup-then-enumerate. -/
lemma mergeReqsDocs_spec :
    ∀ (brds : List ChannelBrd) (c : Nat) (seen : List String),
      mergeReqsDocs c seen brds = idMap c (dedupByText seen (flatReqs brds)) := by
  intro brds
  induction brds with
  | nil => intro c seen; simp [mergeReqsDocs, flatReqs, dedupByText, idMap]
  | cons b bs ih =>
    intro c seen
    simp only [mergeReqsDocs, mergeReqsItems_spec b.source b.requirements c seen]
    have hflat : flatReqs (b :: bs) =
        b.requirements.map (fun r => (r.text, b.source)) ++ flatReqs bs := by
      simp [flatReqs]
    rw [hflat, dedupByText_append, idMap_append, ih]

lemma idMap_ids : ∀ (l : List (String × SourceInfo)) (c : Nat),
    (idMap c l).map ReqOut.req_id
      = (List.range l.length).map (fun i => reqIdStr (c + i)) := by
  intro l
  induction l with
  | nil => intro c; rfl
  | cons p ps ih =>
    intro c
    simp only [idMap, List.map_cons, List.length_cons, List.range_succ_eq_map,
      List.map_map, ih (c + 1), Nat.add_zero]
    congr 1
    apply List.map_congr_left
    intro i _
    simp only [Function.comp]
    congr 1
    omega

lemma reqIdStr_succ_injective : Function.Injective (fun i => reqIdStr (1 + i)) := by
  intro a b hab
  have := reqIdStr_inj (n := 1 + a) (m := 1 + b) (by omega) (by omega) hab
  omega

/-- C6.  The merged requirement list is exactly: concatenate the
per-document requirement lists in document order (all emails before all
meetings), deduplicate by exact text keeping the first occurrence, and
enumerate with ids `REQ-0001, REQ-0002, …` in final dedup order, each
output carrying a traceability object with the source channel and the
full source-document metadata.  The assigned ids are the sequential
`reqIdStr (1 + i)` for `i` below the dedup length, and they are pairwise
distinct (never reused). -/
theorem merge_requirements_correct (email_brds meeting_brds : List ChannelBrd) :
    merge_channel_requirements email_brds meeting_brds
      = idMap 1 (dedupByText [] (flatReqs (email_brds ++ meeting_brds))) ∧
    (merge_channel_requirements email_brds meeting_brds).map ReqOut.req_id
      = (List.range (dedupByText [] (flatReqs (email_brds ++ meeting_brds))).length).map
          (fun i => reqIdStr (1 + i)) ∧
    ((merge_channel_requirements email_brds meeting_brds).map ReqOut.req_id).Nodup := by
  have h1 : merge_channel_requirements email_brds meeting_brds
      = idMap 1 (dedupByText [] (flatReqs (email_brds ++ meeting_brds))) :=
    mergeReqsDocs_spec (email_brds ++ meeting_brds) 1 []
  refine ⟨h1, ?_, ?_⟩
  · rw [h1, idMap_ids]
  · rw [h1, idMap_ids]
    exact (List.nodup_range _).map reqIdStr_succ_injective

/-! ## `DataIngestionEngine.extract_entities` (`data_ingest.py`)

The raw `re.findall` match lists (calls into Python's `re` library) are
the parameters of the embedding, gathered in `EntityMatches`; the
function's own work — assembling the five entity lists, joining
action-item capture groups with `" - "`, stripping requirement
sentences, and the final `list(set(...))` deduplications — is embedded
directly.  CPython's `set` iteration order is unspecified, so
`List.dedup` stands in for `list(set(...))`; the claim concerns only
duplicate-freeness, which is order-independent. -/

/-- A `{name, role}` person entity. -/
structure Person where
  name : String
  role : String
deriving DecidableEq, Repr

/-- The return dict of `extract_entities`, with its five keys. -/
structure Entities where
  dates : List String
  emails : List String
  people : List Person
  action_items : List String
  requirements : List String
deriving DecidableEq, Repr

/-- The raw `re.findall` results consumed by `extract_entities`:
the seven date patterns (concatenated), the email pattern, the
two-group and one-group action patterns, the requirement-sentence
pattern, and the `Name (Role)` people pattern. -/
structure EntityMatches where
  dates : List String
  emails : List String
  actions1 : List (String × String)
  actions2 : List String
  reqs : List String
  people : List (String × String)
deriving Repr

/-- `DataIngestionEngine.extract_entities`, as a function of the raw
match lists.  Note the final `# Deduplicate` block covers `dates`,
`action_items` and `requirements` (and `emails` was built with
`list(set(...))`), but `people` is returned as mapped, never
deduplicated. -/
def extract_entities (m : EntityMatches) : Entities :=
  { dates := m.dates.dedup
  , emails := m.emails.dedup
  , people := m.people.map (fun p => ⟨p.1, p.2⟩)
  , action_items := (m.actions1.map (fun p => p.1 ++ " - " ++ p.2) ++ m.actions2).dedup
  , requirements := (m.reqs.map pyStrip).dedup }

/-- C9 (amended).  For every combination of raw match lists, the
`dates`, `emails`, `action_items` and `requirements` lists of
`extract_entities` are duplicate-free.  (The fifth list, `people`, is
not: see `extract_entities_people_counterexample`.) -/
theorem extract_entities_dedup (m : EntityMatches) :
    (extract_entities m).dates.Nodup ∧
    (extract_entities m).emails.Nodup ∧
    (extract_entities m).action_items.Nodup ∧
    (extract_entities m).requirements.Nodup :=
  ⟨List.nodup_dedup _, List.nodup_dedup _, List.nodup_dedup _, List.nodup_dedup _⟩

/-- C9, counterexample.  `extract_entities` never deduplicates
`people`, so duplicate matches survive.  On the text
`"Alice (PM) and Alice (PM)"` the people pattern
`([A-Z][a-z]+(?:\s[A-Z][a-z]+)?)\s*\(([^)]+)\)` yields exactly
`[("Alice", "PM"), ("Alice", "PM")]`, and the returned `people` list
then contains the same entity twice. -/
theorem extract_entities_people_counterexample :
    ¬ (extract_entities ⟨[], [], [], [], [], [("Alice", "PM"), ("Alice", "PM")]⟩).people.Nodup := by
  decide

/-! ## `BRDExtractionEngine.extract_brd`, no-LLM path (`backend.py`)

With no LLM client, `extract_brd` runs: TF-IDF noise filtering (an
external scikit-learn computation — the `filterF` parameter),
`extract_entities` (regex oracles in `EntityMatches`),
`_extract_via_regex` (regex oracles in `RegexExtract`),
`_merge_extractions`, conflict detection on the extracted feedback, and
`_calculate_confidence`.  The unconditional `chunk_text(filtered_text)`
call that precedes the LLM/regex branch is embedded too: although its
result is unused on the no-LLM path, it does not terminate on filtered
texts of more than `CHUNK_SIZE` words (the C1 bug), so the pipeline
returns `Option`: `none` when the chunking loop exhausts its fuel,
`some` result otherwise.  The scalar metadata the claims do not mention
(`channel_type`, `noise_score`, `markdown_report`,
`raw_filtered_text`) is omitted; the conflict-detection branch of the
claim is represented by the `conflicts` list. -/

/-- `text.split("\n")[0]`. -/
def firstLine (s : String) : String :=
  String.mk (s.toList.takeWhile (fun c => c ≠ '\n'))

/-- `s[:100]`. -/
def take100 (s : String) : String := String.mk (s.toList.take 100)

/-- `config.ENABLE_CONFLICT_DETECTION` (default environment: true). -/
def ENABLE_CONFLICT_DETECTION : Bool := true

/-- The raw `re` results consumed by `_extract_via_regex`: the subject
capture of `re.search(r'Subject:\s*(?:RE:\s*)?(.+)')`, the three
requirement patterns (concatenated), the numbered-item pattern, the two
decision patterns (concatenated), the `Name (Role)` pattern, the
two-group timeline pattern (the one-group `Phase …` pattern is dead
code: its string matches fail the `isinstance(match, tuple)` check),
and the two feedback patterns (concatenated). -/
structure RegexExtract where
  subject : Option String
  reqs1 : List String
  numbered : List (String × String)
  decisions : List String
  people : List (String × String)
  timelines1 : List (String × String)
  feedback : List String
deriving Repr

/-- The keyword filter applied to numbered items that "look like
specs". -/
def spec_keywords : List String :=
  ["must", "support", "api", "system", "data", "user", "performance"]

/-- `BRDExtractionEngine._extract_via_regex`.  With no subject match,
the project topic falls back to the stripped first line, and to
`"Untitled"` when that is empty. -/
def extract_via_regex (o : RegexExtract) (text : String) (ents : Entities) : BrdResult :=
  let topic :=
    match o.subject with
    | some s => pyStrip s
    | none =>
      let first_line := pyStrip (firstLine text)
      if first_line ≠ "" then take100 first_line else "Untitled"
  let reqs := o.reqs1.map pyStrip ++
    (o.numbered.filter
      (fun p => spec_keywords.any (fun kw => pyContains (pyLower p.2) kw))).map
      (fun p => pyStrip p.2)
  let decisions := o.decisions.map pyStrip
  let stakeholders :=
    o.people.foldl
      (fun acc p => if acc.any (fun s => s.name == p.1) then acc else acc ++ [⟨p.1, some p.2⟩])
      (ents.people.map (fun p => (⟨p.name, some p.role⟩ : Stakeholder)))
  let timelines := ents.dates.map (fun d => (⟨d, "Deadline"⟩ : Timeline)) ++
    o.timelines1.map (fun p => (⟨pyStrip p.2, take100 (pyStrip p.1)⟩ : Timeline))
  let feedback := o.feedback.map pyStrip
  { project_topic := topic
  , requirements := reqs.dedup
  , decisions := decisions.dedup
  , stakeholders := stakeholders
  , timelines := timelines
  , feedback := feedback.dedup
  , action_items := ents.action_items.dedup
  , conflicts := [] }

/-- `BRDExtractionEngine._merge_extractions`: fold regex entities into
the extraction result, skipping items already present (each loop checks
against the list as mutated so far). -/
def merge_extractions (r : BrdResult) (ents : Entities) : BrdResult :=
  let timelines := ents.dates.foldl
    (fun acc d => if acc.any (fun t => t.date == d) then acc
                  else acc ++ [(⟨d, "Detected deadline"⟩ : Timeline)]) r.timelines
  let stakeholders := ents.people.foldl
    (fun acc p => if acc.any (fun s => s.name == p.name) then acc
                  else acc ++ [(⟨p.name, some p.role⟩ : Stakeholder)]) r.stakeholders
  let reqs := ents.requirements.foldl
    (fun acc q => if q ∈ acc then acc else acc ++ [q]) r.requirements
  let actions := ents.action_items.foldl
    (fun acc a => if a ∈ acc then acc else acc ++ [a]) r.action_items
  { r with timelines := timelines, stakeholders := stakeholders,
           requirements := reqs, action_items := actions }

/-- The post-chunking part of the no-LLM `extract_brd` pipeline: entity
extraction, regex extraction, merge, conflict detection on non-empty
feedback, confidence.  Returns the result record together with its
confidence score. -/
def extract_brd_core (filterF : String → String × ℚ)
    (entOracle : String → EntityMatches) (regexOracle : String → RegexExtract)
    (pol : String → ℚ) (text : String) : BrdResult × ℚ :=
  let ft := (filterF text).1
  let ents := extract_entities (entOracle ft)
  let brd := extract_via_regex (regexOracle ft) ft ents
  let brd := merge_extractions brd ents
  let brd :=
    if ENABLE_CONFLICT_DETECTION ∧ brd.feedback ≠ [] then
      { brd with conflicts := detect_conflicts pol brd.feedback }
    else brd
  (brd, calc_confidence brd)

/-- The no-LLM pipeline of `BRDExtractionEngine.extract_brd`: noise
filter, entity extraction, the unconditional
`chunks = self.ingestion.chunk_text(filtered_text)` step (default
`chunk_size`/`overlap`, modelled by the `0` arguments; its result feeds
only the LLM branch, but the call still runs — and may diverge — before
the regex fallback), then the regex extraction, merge, conflict
detection and confidence of `extract_brd_core`.  `none` models the
pipeline never returning because the chunking loop did not finish
within `fuel` iterations. -/
def extract_brd_noLLM (fuel : Nat) (filterF : String → String × ℚ)
    (entOracle : String → EntityMatches) (regexOracle : String → RegexExtract)
    (pol : String → ℚ) (text : String) : Option (BrdResult × ℚ) :=
  match chunk_text fuel (filterF text).1 0 0 with
  | none => none
  | some _ => some (extract_brd_core filterF entOracle regexOracle pol text)

lemma roundHalfEven_intCast (k : ℤ) : roundHalfEven (k : ℚ) = k := by
  unfold roundHalfEven
  rw [Int.floor_intCast]
  norm_num

/-- An all-empty result whose topic defaulted to `"Untitled"` scores
exactly the `0.10` topic bonus. -/
lemma calc_confidence_untitled :
    calc_confidence ⟨"Untitled", [], [], [], [], [], [], []⟩ = 1/10 := by
  unfold calc_confidence rawScore contribution
  norm_num
  rw [if_neg (show ¬ ("Untitled" : String) = "" by decide)]
  unfold round2
  rw [show ((1:ℚ)/10 * 100) = ((10:ℤ):ℚ) by norm_num, roundHalfEven_intCast]
  norm_num

/-- C2 (amended).  When the filtered text has at most `CHUNK_SIZE`
words (so the unconditional chunking step terminates — see C1), no
regex matches anything in it (all oracles empty, no subject) and its
first line strips to empty — as for any whitespace-only input —
`extract_brd` without an LLM returns a result whose seven list fields
are all empty and whose project topic is `"Untitled"`, and the
confidence score is `0.1` (the `"Untitled"` default is a non-empty
topic and earns the flat bonus), not `0.0`. -/
theorem extract_brd_blank (fuel : Nat) (filterF : String → String × ℚ)
    (entOracle : String → EntityMatches) (regexOracle : String → RegexExtract)
    (pol : String → ℚ) (text : String)
    (h0 : (pySplitWords (filterF text).1).length ≤ CHUNK_SIZE)
    (h1 : regexOracle (filterF text).1 = ⟨none, [], [], [], [], [], []⟩)
    (h2 : entOracle (filterF text).1 = ⟨[], [], [], [], [], []⟩)
    (h3 : pyStrip (firstLine (filterF text).1) = "") :
    extract_brd_noLLM fuel filterF entOracle regexOracle pol text
      = some (⟨"Untitled", [], [], [], [], [], [], []⟩, 1/10) := by
  have hbrd : (extract_brd_core filterF entOracle regexOracle pol text).1
      = ⟨"Untitled", [], [], [], [], [], [], []⟩ := by
    simp only [extract_brd_core]
    rw [h1, h2]
    simp [extract_entities, extract_via_regex, merge_extractions, h3]
  have hconf : (extract_brd_core filterF entOracle regexOracle pol text).2 = 1/10 := by
    have h4 : (extract_brd_core filterF entOracle regexOracle pol text).2
        = calc_confidence (extract_brd_core filterF entOracle regexOracle pol text).1 := rfl
    rw [h4, hbrd, calc_confidence_untitled]
  have hchunk : ∃ l, chunk_text fuel (filterF text).1 0 0 = some l := by
    by_cases he : (filterF text).1 = ""
    · exact ⟨[], by unfold chunk_text; rw [if_pos he]⟩
    · exact ⟨[(filterF text).1], by simp [chunk_text, he, h0]⟩
  obtain ⟨l, hl⟩ := hchunk
  unfold extract_brd_noLLM
  rw [hl]
  show some (extract_brd_core filterF entOracle regexOracle pol text)
    = some (⟨"Untitled", [], [], [], [], [], [], []⟩, 1/10)
  have hcore : extract_brd_core filterF entOracle regexOracle pol text
      = (⟨"Untitled", [], [], [], [], [], [], []⟩, 1/10) := by
    have hsplit : extract_brd_core filterF entOracle regexOracle pol text
        = ((extract_brd_core filterF entOracle regexOracle pol text).1,
           (extract_brd_core filterF entOracle regexOracle pol text).2) := rfl
    rw [hsplit, hbrd, hconf]
  rw [hcore]

/-- Witness for `extract_brd_blank`: ten spaces, identity noise filter
(the `if not sentences: return text, 0.5` branch that whitespace-only
text takes), all-empty oracles; the chunking step returns at once
(zero words), so one unit of fuel suffices. -/
theorem extract_brd_blank_witness :
    extract_brd_noLLM 1 (fun t => (t, 1/2)) (fun _ => ⟨[], [], [], [], [], []⟩)
        (fun _ => ⟨none, [], [], [], [], [], []⟩) (fun _ => 0) "          "
      = some (⟨"Untitled", [], [], [], [], [], [], []⟩, 1/10) :=
  extract_brd_blank 1 (fun t => (t, 1/2)) (fun _ => ⟨[], [], [], [], [], []⟩)
    (fun _ => ⟨none, [], [], [], [], [], []⟩) (fun _ => 0) "          "
    (by decide) rfl rfl (by decide)

/-- C2, counterexample.  On the whitespace-only input (which matches no
requirement or entity regex) the pipeline does return, with every list
field empty, but its confidence score is not `0.0`: the topic defaults
to `"Untitled"`, which is non-empty and collects the `+0.10` bonus. -/
theorem extract_brd_blank_counterexample :
    (extract_brd_noLLM 1 (fun t => (t, 1/2)) (fun _ => ⟨[], [], [], [], [], []⟩)
        (fun _ => ⟨none, [], [], [], [], [], []⟩) (fun _ => 0) "          "
      = some (⟨"Untitled", [], [], [], [], [], [], []⟩, 1/10)) ∧ ((1:ℚ)/10 ≠ 0) := by
  have h0 : extract_brd_noLLM 1 (fun t => (t, 1/2)) (fun _ => ⟨[], [], [], [], [], []⟩)
      (fun _ => ⟨none, [], [], [], [], [], []⟩) (fun _ => 0) "          "
      = some (extract_brd_core (fun t => (t, 1/2)) (fun _ => ⟨[], [], [], [], [], []⟩)
          (fun _ => ⟨none, [], [], [], [], [], []⟩) (fun _ => 0) "          ") := rfl
  have h1 : (extract_brd_core (fun t => (t, 1/2)) (fun _ => ⟨[], [], [], [], [], []⟩)
      (fun _ => ⟨none, [], [], [], [], [], []⟩) (fun _ => 0) "          ").1
      = ⟨"Untitled", [], [], [], [], [], [], []⟩ := by decide
  have h2 : extract_brd_core (fun t => (t, 1/2)) (fun _ => ⟨[], [], [], [], [], []⟩)
      (fun _ => ⟨none, [], [], [], [], [], []⟩) (fun _ => 0) "          "
      = ((extract_brd_core (fun t => (t, 1/2)) (fun _ => ⟨[], [], [], [], [], []⟩)
            (fun _ => ⟨none, [], [], [], [], [], []⟩) (fun _ => 0) "          ").1,
         calc_confidence (extract_brd_core (fun t => (t, 1/2))
            (fun _ => ⟨[], [], [], [], [], []⟩)
            (fun _ => ⟨none, [], [], [], [], [], []⟩) (fun _ => 0) "          ").1) := rfl
  refine ⟨?_, by norm_num⟩
  rw [h0, h2, h1, calc_confidence_untitled]
